import Mathlib

/-!
# Verification development for `main.go`

A shallow embedding of the GCP metadata-token login and time-bounded shallow
checkout pipeline of `main.go`, with the properties proved about it.

Conventions of the embedding.

* A Go `string` is a Lean `String`; `len` is the number of characters.  Every
  literal of the program is ASCII, so the byte-wise and the character-wise
  comparison of a suffix agree on text.
* A Go result pair `(v, err)` is a Lean pair whose second component is an
  `Option GoError`; `none` is the `nil` error.  A pointer result that may be
  `nil` is an `Option`.
* Calls that leave the process (HTTP round trip, JSON decoding of the body,
  logging, the git client) are fields of an environment `Env`; every effect
  the program performs is recorded, in program order, in a list of `Event`s.
* A `defer` is modelled by emitting its event at function exit, last
  registered first.
-/

namespace GcpSource

/-! ## Strings -/

/-- Go `strings.HasSuffix(s, suffix)`:
`len(s) >= len(suffix) && s[len(s)-len(suffix):] == suffix`. -/
def HasSuffix (s suffix : String) : Bool :=
  decide (s.length ≥ suffix.length) &&
    (s.data.drop (s.length - suffix.length) == suffix.data)

/-- `main.go:33` `ValidHost` returns if a given host is a valid GCR host. -/
def ValidHost (host : String) : Bool :=
  host == "gcr.io" || HasSuffix host ".gcr.io" || HasSuffix host "-docker.pkg.dev"

/-! ## Errors -/

/-- A Go `error` value.  `errorString` is what `errors.New` and `fmt.Errorf`
without `%w` build; `wrapError` is what `fmt.Errorf` with one `%w` builds. -/
inductive GoError where
  | errorString (s : String)
  | wrapError (msg : String) (err : GoError)
  deriving DecidableEq, Repr

namespace GoError

/-- The `Error()` method. -/
def Error : GoError → String
  | errorString s => s
  | wrapError msg _ => msg

/-- Go `errors.Unwrap`. -/
def Unwrap : GoError → Option GoError
  | errorString _ => none
  | wrapError _ err => some err

/-- Go `errors.Is(err, target)`: `err` or an error of its `Unwrap` chain is `target`. -/
def Is : GoError → GoError → Bool
  | errorString s, target => errorString s == target
  | wrapError msg err, target => wrapError msg err == target || Is err target

end GoError

/-- Go `fmt.Errorf(format ++ "%s", arg)`: no wrapped error. -/
def Errorf_s (format arg : String) : GoError :=
  GoError.errorString (format ++ arg)

/-- Go `fmt.Errorf(format ++ "%w", err)`: the message ends with `err.Error()` and
`Unwrap` gives `err` back. -/
def Errorf_w (format : String) (err : GoError) : GoError :=
  GoError.wrapError (format ++ err.Error) err

/-! ## Contexts and time -/

/-- Go `time.Time`, as nanoseconds on one clock. -/
abbrev Time := Int

/-- Go `time.Duration`, in nanoseconds. -/
abbrev Duration := Int

/-- Go `time.Second`. -/
def Second : Duration := 1000000000

/-- A `context.Context` of package `context`: the background context, a context
derived by `WithCancel`, and a context derived by `WithDeadline`. -/
inductive Context where
  | background
  | cancelCtx (parent : Context)
  | timerCtx (parent : Context) (deadline : Time)
  deriving DecidableEq, Repr

namespace Context

/-- The `Deadline()` method: a `cancelCtx` answers with its parent's deadline, a
`timerCtx` with its own. -/
def Deadline : Context → Option Time
  | background => none
  | cancelCtx parent => parent.Deadline
  | timerCtx _ deadline => some deadline

/-- Whether `Done()` is closed at time `t`, where `cancelled` tells the contexts
whose cancel function has been called: a context is done when it was cancelled
itself, when its deadline has passed, or when its parent is done. -/
def Done (cancelled : Context → Bool) (t : Time) : Context → Bool
  | background => false
  | cancelCtx parent => cancelled (cancelCtx parent) || Done cancelled t parent
  | timerCtx parent deadline =>
      cancelled (timerCtx parent deadline) || decide (deadline ≤ t) || Done cancelled t parent

end Context

/-- Go `context.WithDeadline(parent, d)`: when the parent's deadline is already
before `d` the result is `WithCancel(parent)`, otherwise a timer context with
deadline `d`. -/
def WithDeadline (parent : Context) (d : Time) : Context :=
  match parent.Deadline with
  | some cur => if cur < d then Context.cancelCtx parent else Context.timerCtx parent d
  | none => Context.timerCtx parent d

/-- Go `context.WithTimeout(parent, timeout)`, called at time `now`:
`WithDeadline(parent, time.Now().Add(timeout))`. -/
def WithTimeout (parent : Context) (now : Time) (timeout : Duration) : Context :=
  WithDeadline parent (now + timeout)

/-! ## Data model -/

/-- `main.go:23` `gceToken`, the JSON payload of the metadata endpoint. -/
structure gceToken where
  AccessToken : String := ""
  ExpiresIn : Int := 0
  TokenType : String := ""
  deriving DecidableEq, Repr

/-- `main.go:30` `GCP_TOKEN_URL` is the default GCP metadata endpoint used for
authentication. -/
def GCP_TOKEN_URL : String :=
  "http://metadata.google.internal/computeMetadata/v1/instance/service-accounts/default/token"

/-- `main.go:39` `Client` is a GCP GCR client. -/
structure Client where
  tokenURL : String
  deriving DecidableEq, Repr

/-- The `authn.AuthConfig` of go-containerregistry; the zero value has every
field empty. -/
structure AuthConfig where
  Username : String := ""
  Password : String := ""
  Auth : String := ""
  IdentityToken : String := ""
  RegistryToken : String := ""
  deriving DecidableEq, Repr

/-- The `authn.Authenticator` that `authn.FromConfig` builds: it holds the config. -/
structure Authenticator where
  config : AuthConfig
  deriving DecidableEq, Repr

/-- Go `authn.FromConfig(cfg)`. -/
def FromConfig (cfg : AuthConfig) : Authenticator := ⟨cfg⟩

/-- The `Authorization()` method of the authenticator of `authn.FromConfig`: the
config it was built from and a nil error. -/
def Authenticator.Authorization (a : Authenticator) : AuthConfig × Option GoError :=
  (a.config, none)

/-- The fields of `net/url.URL` the program reads. -/
structure URL where
  Scheme : String
  Host : String
  Path : String
  deriving DecidableEq, Repr

/-- An `http.Request`: method, target, headers in the order added, and the
context it runs under. -/
structure Request where
  Method : String
  URL : String
  Header : List (String × String)
  Ctx : Context
  deriving DecidableEq, Repr

/-- An `http.Response`: status text, status code and the body. -/
structure Response where
  Status : String
  StatusCode : Int
  Body : String
  deriving DecidableEq, Repr

/-- Go `http.StatusOK`. -/
def StatusOK : Int := 200

namespace git

/-- The `git.TransportType` of `github.com/fluxcd/pkg/git`: a string type holding
the scheme of the repository URL. -/
abbrev TransportType := String

/-- The constant `git.SSH`. -/
def SSH : TransportType := "ssh"
/-- The constant `git.HTTPS`. -/
def HTTPS : TransportType := "https"
/-- The constant `git.HTTP`. -/
def HTTP : TransportType := "http"

/-- The constant `git.DefaultPublicKeyAuthUser`. -/
def DefaultPublicKeyAuthUser : String := "git"

/-- The `git.AuthOptions` of `github.com/fluxcd/pkg/git`. -/
structure AuthOptions where
  Transport : TransportType := ""
  Host : String := ""
  Username : String := ""
  Password : String := ""
  BearerToken : String := ""
  Identity : String := ""
  KnownHosts : String := ""
  CAFile : String := ""
  deriving DecidableEq, Repr

/-- The `git.Commit` a clone returns, identified by its hash. -/
structure Commit where
  Hash : String
  deriving DecidableEq, Repr

end git

namespace repository

/-- The `repository.CloneConfig` of `github.com/fluxcd/pkg/git/repository`; the
zero value has every flag off. -/
structure CloneConfig where
  RecurseSubmodules : Bool := false
  ShallowClone : Bool := false
  deriving DecidableEq, Repr

end repository

namespace gogit

/-- The client options of `github.com/fluxcd/pkg/git/gogit` the program uses. -/
inductive ClientOption where
  | WithDiskStorage
  | WithInsecureCredentialsOverHTTP
  deriving DecidableEq, Repr

/-- The handle `gogit.NewClient` returns. -/
structure Client where
  handle : Nat
  deriving DecidableEq, Repr

end gogit

/-! ## Effects -/

/-- The effects of the program, recorded in program order. -/
inductive Event where
  /-- A line written by `log.FromContext(ctx).Info`. -/
  | log (msg : String)
  /-- The call `client.Do(request)` on the metadata endpoint. -/
  | httpDo (request : Request)
  /-- The call `decoder.Decode` reading the response body. -/
  | decode (response : Response)
  /-- The call `io.Copy(io.Discard, response.Body)`, reading the body to its end. -/
  | copyDiscard (response : Response)
  /-- The call `response.Body.Close()`. -/
  | bodyClose (response : Response)
  /-- The call `gogit.NewClient(dir, authOpts, clientOpts...)`. -/
  | newClient (dir : String) (authOpts : git.AuthOptions) (clientOpts : List gogit.ClientOption)
  /-- The call `gitReader.Clone(gitCtx, url, cloneOpts)`. -/
  | clone (gitReader : gogit.Client) (gitCtx : Context) (url : String)
      (cloneOpts : repository.CloneConfig)
  /-- The call `gitReader.Close()`. -/
  | clientClose (gitReader : gogit.Client)
  /-- The call of the cancel function of the checkout context. -/
  | cancel (gitCtx : Context)
  deriving DecidableEq, Repr

/-- Whether an event is a request to the metadata endpoint. -/
def Event.isRequest : Event → Bool
  | Event.httpDo _ => true
  | _ => false

/-- Whether an event is a decoding of the response body. -/
def Event.isDecode : Event → Bool
  | Event.decode _ => true
  | _ => false

/-- Whether an event is a `Clone` call. -/
def Event.isClone : Event → Bool
  | Event.clone _ _ _ _ => true
  | _ => false

/-- Whether an event is a `Close` of a git client handle. -/
def Event.isClientClose : Event → Bool
  | Event.clientClose _ => true
  | _ => false

/-- What the program calls outside itself. -/
structure Env where
  /-- The sentinel `oci.ErrUnconfiguredProvider`. -/
  ErrUnconfiguredProvider : GoError
  /-- The error of `http.NewRequestWithContext(ctx, method, url, nil)`, if any. -/
  NewRequestErr : Context → String → String → Option GoError
  /-- The round trip of `(*http.Client).Do`. -/
  Do : Request → Except GoError Response
  /-- The result of `json.NewDecoder(body).Decode` into a zero `gceToken`. -/
  Decode : String → Except GoError gceToken
  /-- The method `(*url.URL).String`. -/
  URLString : URL → String
  /-- The reading of the clock by `context.WithTimeout`. -/
  now : Time
  /-- The call `gogit.NewClient`. -/
  NewClient : String → git.AuthOptions → List gogit.ClientOption → Except GoError gogit.Client
  /-- The call `(*gogit.Client).Clone`, with the pair it returns. -/
  Clone : gogit.Client → Context → String → repository.CloneConfig →
    Option git.Commit × Option GoError

/-! ## Building the auth options (`github.com/fluxcd/pkg/git`) -/

namespace git

/-- Go map lookup `string(data[key])`: the empty string for an absent key. -/
def lookup (data : List (String × String)) (key : String) : String :=
  match data.find? (fun kv => kv.1 == key) with
  | some kv => kv.2
  | none => ""

/-- The method `AuthOptions.Validate` of `github.com/fluxcd/pkg/git`. -/
def AuthOptions.Validate (o : AuthOptions) : Option GoError :=
  if o.Transport = HTTPS ∨ o.Transport = HTTP then
    if o.Username = "" ∧ o.Password ≠ "" then
      some (GoError.errorString ("invalid '" ++ o.Transport ++
        "' auth option: 'password' requires 'username' to be set"))
    else if o.BearerToken ≠ "" ∧ (o.Username ≠ "" ∨ o.Password ≠ "") then
      some (GoError.errorString ("invalid '" ++ o.Transport ++
        "' auth option: 'bearerToken' cannot be set with 'username' or 'password'"))
    else none
  else if o.Transport = SSH then
    if o.Host = "" then
      some (GoError.errorString ("invalid '" ++ o.Transport ++ "' auth option: 'host' is required"))
    else if o.Identity = "" then
      some (GoError.errorString ("invalid '" ++ o.Transport ++
        "' auth option: 'identity' is required"))
    else if o.KnownHosts = "" then
      some (GoError.errorString ("invalid '" ++ o.Transport ++
        "' auth option: 'known_hosts' is required"))
    else none
  else if o.Transport = "" then
    some (GoError.errorString "no transport type set")
  else
    some (GoError.errorString ("unknown transport '" ++ o.Transport ++ "'"))

/-- The function `git.NewAuthOptions(u, data)` of `github.com/fluxcd/pkg/git`: the
transport is the scheme of the URL, the host its host, the credentials come
from `data`, and the options are validated. -/
def NewAuthOptions (u : URL) (data : List (String × String)) :
    Option AuthOptions × Option GoError :=
  let opts : AuthOptions := { Transport := u.Scheme, Host := u.Host }
  let opts : AuthOptions :=
    if data.length > 0 then
      let username := lookup data "username"
      { opts with
        Username := if username = "" then DefaultPublicKeyAuthUser else username
        Password := lookup data "password"
        BearerToken := lookup data "bearerToken"
        Identity := lookup data "identity"
        KnownHosts := lookup data "known_hosts"
        CAFile := if (data.find? (fun kv => kv.1 == "ca.crt")).isSome then lookup data "ca.crt"
                  else lookup data "caFile" }
    else opts
  match opts.Validate with
  | some err => (none, some err)
  | none => (some opts, none)

end git

/-! ## The program -/

/-- `main.go:44` `NewClient` creates a new GCR client with default configurations. -/
def NewClient : Client := { tokenURL := GCP_TOKEN_URL }

/-- `main.go:49` `WithTokenURL` sets the token URL used by the GCR client. -/
def Client.WithTokenURL (c : Client) (url : String) : Client :=
  { c with tokenURL := url }

/-- `main.go:58` `getLoginAuth` obtains authentication by getting a token from the
metadata API on GCP.  The two deferred calls are registered once the response
is there, `Body.Close` first and `io.Copy(io.Discard, Body)` second, so at
every later exit the copy runs first and the close second. -/
def Client.getLoginAuth (env : Env) (c : Client) (ctx : Context) :
    (AuthConfig × Option GoError) × List Event :=
  let authConfig : AuthConfig := {}
  match env.NewRequestErr ctx "GET" c.tokenURL with
  | some err => ((authConfig, some err), [])
  | none =>
    let request : Request :=
      { Method := "GET", URL := c.tokenURL, Header := [("Metadata-Flavor", "Google")], Ctx := ctx }
    match env.Do request with
    | Except.error err => ((authConfig, some err), [Event.httpDo request])
    | Except.ok response =>
      let deferred := [Event.copyDiscard response, Event.bodyClose response]
      if response.StatusCode ≠ StatusOK then
        ((authConfig, some (Errorf_s "unexpected status from metadata service: " response.Status)),
          [Event.httpDo request] ++ deferred)
      else
        match env.Decode response.Body with
        | Except.error err =>
          ((authConfig, some err), [Event.httpDo request, Event.decode response] ++ deferred)
        | Except.ok accessToken =>
          (({ Username := "oauth2accesstoken", Password := accessToken.AccessToken }, none),
            [Event.httpDo request, Event.decode response] ++ deferred)

/-- `main.go:95` `Login` attempts to get the authentication material for GCR. -/
def Client.Login (env : Env) (c : Client) (ctx : Context) (autoLogin : Bool) (image : String)
    (_ref : Option String) : (Option Authenticator × Option GoError) × List Event :=
  if autoLogin then
    let r := c.getLoginAuth env ctx
    match r.1.2 with
    | some err =>
      ((none, some err),
        [Event.log ("logging in to GCP GCR for " ++ image)] ++ r.2 ++
          [Event.log ("error logging into GCP " ++ err.Error)])
    | none =>
      ((some (FromConfig r.1.1), none), [Event.log ("logging in to GCP GCR for " ++ image)] ++ r.2)
  else
    ((none, some (Errorf_w "GCR authentication failed: " env.ErrUnconfiguredProvider)), [])

/-- `main.go:110` `getAuthOpts`.  `Login` never returns a nil authenticator with
a nil error; the arm for that pair stands for the nil dereference of
`auth.Authorization()`. -/
def getAuthOpts (env : Env) (ctx : Context) (u : URL) :
    (Option git.AuthOptions × Option GoError) × List Event :=
  let login := NewClient
  let r := login.Login env ctx true (env.URLString u) none
  match r.1 with
  | (_, some err) => ((none, some err), r.2)
  | (none, none) =>
    ((none, some (GoError.errorString
      "runtime error: invalid memory address or nil pointer dereference")), r.2)
  | (some auth, none) =>
    match auth.Authorization with
    | (_, some err) => ((none, some err), r.2)
    | (config, none) =>
      let authData := [("username", config.Username), ("password", config.Password)]
      match git.NewAuthOptions u authData with
      | (_, some err) => ((none, some err), r.2)
      | (authOpts, none) => ((authOpts, none), r.2)

/-- `main.go:144` the client options of `gitCheckout`: disk storage, and the
permission to send credentials over plain HTTP when the transport is `git.HTTP`. -/
def gitCheckout.clientOpts (authOpts : git.AuthOptions) : List gogit.ClientOption :=
  let clientOpts := [gogit.ClientOption.WithDiskStorage]
  if authOpts.Transport = git.HTTP then
    clientOpts ++ [gogit.ClientOption.WithInsecureCredentialsOverHTTP]
  else clientOpts

/-- `main.go:141` the context `gitCheckout` clones under:
`context.WithTimeout(ctx, time.Second*180)`. -/
def gitCheckout.gitCtx (env : Env) (ctx : Context) : Context :=
  WithTimeout ctx env.now (Second * 180)

/-- `main.go:135` `gitCheckout`.  The deferred `cancel()` is registered before the
client is made and the deferred `gitReader.Close()` after, so at exit the close
runs first and the cancel second. -/
def gitCheckout (env : Env) (ctx : Context) (url : String) (authOpts : git.AuthOptions)
    (dir : String) : (Option git.Commit × Option GoError) × List Event :=
  let cloneOpts : repository.CloneConfig := { ShallowClone := true }
  let gitCtx := gitCheckout.gitCtx env ctx
  let clientOpts := gitCheckout.clientOpts authOpts
  match env.NewClient dir authOpts clientOpts with
  | Except.error err =>
    ((none, some err), [Event.newClient dir authOpts clientOpts, Event.cancel gitCtx])
  | Except.ok gitReader =>
    let r := env.Clone gitReader gitCtx url cloneOpts
    let events := [Event.newClient dir authOpts clientOpts,
      Event.clone gitReader gitCtx url cloneOpts, Event.clientClose gitReader, Event.cancel gitCtx]
    match r.2 with
    | some err => ((none, some err), events)
    | none => ((r.1, none), events)

/-! ## Concrete environments -/

/-- The token payload of the metadata endpoint used in the examples. -/
def sampleBody : String :=
  "\x7b\"access_token\":\"tok123\",\"expires_in\":3600,\"token_type\":\"Bearer\"\x7d"

/-- The URL `main` checks out, parsed. -/
def mainURL : URL :=
  { Scheme := "https", Host := "source.developers.google.com",
    Path := "/p/<project-id>/r/<repo-name>" }

/-- An environment in which the metadata endpoint answers `200 OK` with
`sampleBody`, the body decodes to the token it spells, the git client is
acquired and the clone returns commit `abc123`. -/
def okEnv : Env where
  ErrUnconfiguredProvider := GoError.errorString "oci provider is not configured for login"
  NewRequestErr := fun _ _ _ => none
  Do := fun _ => Except.ok { Status := "200 OK", StatusCode := 200, Body := sampleBody }
  Decode := fun body =>
    if body = sampleBody then
      Except.ok { AccessToken := "tok123", ExpiresIn := 3600, TokenType := "Bearer" }
    else Except.error (GoError.errorString "invalid character")
  URLString := fun u => u.Scheme ++ "://" ++ u.Host ++ u.Path
  now := 0
  NewClient := fun _ _ _ => Except.ok { handle := 1 }
  Clone := fun _ _ _ _ => (some { Hash := "abc123" }, none)

/-- The auth options `getAuthOpts` builds for `mainURL` from the token `tok123`. -/
def mainAuthOpts : git.AuthOptions :=
  { Transport := "https", Host := "source.developers.google.com",
    Username := "oauth2accesstoken", Password := "tok123" }

/-- The environment `okEnv` with a metadata endpoint that answers
`503 Service Unavailable`. -/
def unavailableEnv : Env :=
  { okEnv with
    Do := fun _ =>
      Except.ok { Status := "503 Service Unavailable", StatusCode := 503, Body := "" } }

/-- The environment `okEnv` with a clone that fails. -/
def cloneFailsEnv : Env :=
  { okEnv with
    Clone := fun _ _ _ _ => (none, some (GoError.errorString "authentication required")) }

/-- The request `getLoginAuth` sends: a `GET` of the token URL with the header
`Metadata-Flavor: Google`, under the caller's context. -/
def tokenRequest (c : Client) (ctx : Context) : Request :=
  { Method := "GET", URL := c.tokenURL, Header := [("Metadata-Flavor", "Google")], Ctx := ctx }

/-! ## Lemmas on strings -/

theorem HasSuffix_iff (s suffix : String) :
    HasSuffix s suffix = true ↔ ∃ p : String, s = p ++ suffix := by
  unfold HasSuffix
  constructor
  · intro h
    simp only [Bool.and_eq_true, decide_eq_true_eq, beq_iff_eq] at h
    obtain ⟨_, hd⟩ := h
    refine ⟨⟨s.data.take (s.length - suffix.length)⟩, ?_⟩
    apply String.ext
    simp only [String.data_append]
    rw [← hd]
    exact (List.take_append_drop _ _).symm
  · rintro ⟨p, rfl⟩
    have hlen : (p ++ suffix).length = p.data.length + suffix.data.length := by
      rw [String.length, String.data_append, List.length_append]
    rw [hlen, String.data_append]
    simp only [String.length, ge_iff_le, Nat.le_add_left, decide_True, Bool.true_and,
      Nat.add_sub_cancel, beq_iff_eq]
    exact List.drop_left _ _

/-- C1. `ValidHost host` holds exactly when `host` is `gcr.io`, or ends with
`.gcr.io`, or ends with `-docker.pkg.dev`; the comparison is case-sensitive and
nothing is normalised: `gcr.io`, `eu.gcr.io` and `foo-docker.pkg.dev` are valid,
`example.com` and `GCR.IO` are not. -/
theorem ValidHost_iff :
    (∀ host : String, ValidHost host = true ↔
      (host = "gcr.io" ∨ (∃ p : String, host = p ++ ".gcr.io") ∨
        (∃ p : String, host = p ++ "-docker.pkg.dev"))) ∧
    ValidHost "gcr.io" = true ∧ ValidHost "eu.gcr.io" = true ∧
    ValidHost "foo-docker.pkg.dev" = true ∧
    ValidHost "example.com" = false ∧ ValidHost "GCR.IO" = false := by
  refine ⟨?_, by decide, by decide, by decide, by decide, by decide⟩
  intro host
  unfold ValidHost
  simp only [Bool.or_eq_true, beq_iff_eq, HasSuffix_iff, or_assoc]

/-! ## Errors -/

theorem GoError.Is_self (e : GoError) : e.Is e = true := by
  cases e <;> simp [GoError.Is]

/-! ## Login -/

/-- C2. With `autoLogin = false`, `Login` returns no authenticator and the error
`fmt.Errorf("GCR authentication failed: %w", oci.ErrUnconfiguredProvider)`,
which unwraps to `oci.ErrUnconfiguredProvider` and satisfies `errors.Is` for it,
and it performs no effect at all, so no request to the metadata endpoint. -/
theorem Login_autoLogin_false (env : Env) (c : Client) (ctx : Context) (image : String)
    (ref : Option String) :
    (c.Login env ctx false image ref).1 =
        (none, some (Errorf_w "GCR authentication failed: " env.ErrUnconfiguredProvider)) ∧
      (Errorf_w "GCR authentication failed: " env.ErrUnconfiguredProvider).Unwrap =
        some env.ErrUnconfiguredProvider ∧
      (Errorf_w "GCR authentication failed: " env.ErrUnconfiguredProvider).Is
        env.ErrUnconfiguredProvider = true ∧
      (c.Login env ctx false image ref).2 = [] ∧
      ((c.Login env ctx false image ref).2.filter Event.isRequest).length = 0 := by
  refine ⟨rfl, rfl, ?_, rfl, rfl⟩
  simp [Errorf_w, GoError.Is, GoError.Is_self]

/-- C3. When the request is built, the metadata endpoint answers status 200 and
the body decodes to a token whose `access_token` is `t`, `Login` with
`autoLogin = true` succeeds with the authenticator of the credential whose
username is `oauth2accesstoken` and whose password is `t`, unchanged. -/
theorem Login_ok_credential (env : Env) (c : Client) (ctx : Context) (image : String)
    (ref : Option String) (response : Response) (token : gceToken) (t : String)
    (hreq : env.NewRequestErr ctx "GET" c.tokenURL = none)
    (hdo : env.Do (tokenRequest c ctx) = Except.ok response)
    (hstatus : response.StatusCode = 200)
    (hdecode : env.Decode response.Body = Except.ok token)
    (ht : token.AccessToken = t) :
    (c.Login env ctx true image ref).1 =
        (some (FromConfig { Username := "oauth2accesstoken", Password := t }), none) ∧
      ∃ auth, (c.Login env ctx true image ref).1.1 = some auth ∧
        auth.Authorization.1.Username = "oauth2accesstoken" ∧
        auth.Authorization.1.Password = t ∧ auth.Authorization.2 = none := by
  have h : (c.Login env ctx true image ref).1 =
      (some (FromConfig { Username := "oauth2accesstoken", Password := t }), none) := by
    simp only [tokenRequest] at hdo
    simp [Client.Login, Client.getLoginAuth, hreq, hdo, hstatus, StatusOK, hdecode, ht]
  refine ⟨h, FromConfig { Username := "oauth2accesstoken", Password := t }, ?_, rfl, rfl, rfl⟩
  rw [h]

/-- Witness of C3: the body
`{"access_token":"tok123","expires_in":3600,"token_type":"Bearer"}` with status
200 gives the password `tok123`. -/
theorem Login_ok_credential_witness :
    okEnv.NewRequestErr Context.background "GET" NewClient.tokenURL = none ∧
      okEnv.Do (tokenRequest NewClient Context.background) =
        Except.ok { Status := "200 OK", StatusCode := 200, Body := sampleBody } ∧
      (NewClient.Login okEnv Context.background true "x" none).1 =
        (some (FromConfig { Username := "oauth2accesstoken", Password := "tok123" }), none) :=
  ⟨rfl, rfl,
    (Login_ok_credential okEnv NewClient Context.background "x" none
      { Status := "200 OK", StatusCode := 200, Body := sampleBody }
      { AccessToken := "tok123", ExpiresIn := 3600, TokenType := "Bearer" } "tok123"
      rfl rfl rfl (by simp [okEnv]) rfl).1⟩

/-- The events of `getLoginAuth`, by the outcome of building the request, of the
round trip, of the status check and of the decoding. -/
theorem getLoginAuth_events (env : Env) (c : Client) (ctx : Context) :
    (c.getLoginAuth env ctx).2 =
      match env.NewRequestErr ctx "GET" c.tokenURL with
      | some _ => []
      | none =>
        match env.Do (tokenRequest c ctx) with
        | Except.error _ => [Event.httpDo (tokenRequest c ctx)]
        | Except.ok response =>
          if response.StatusCode ≠ StatusOK then
            [Event.httpDo (tokenRequest c ctx), Event.copyDiscard response,
              Event.bodyClose response]
          else
            [Event.httpDo (tokenRequest c ctx), Event.decode response,
              Event.copyDiscard response, Event.bodyClose response] := by
  unfold Client.getLoginAuth tokenRequest
  cases hreq : env.NewRequestErr ctx "GET" c.tokenURL with
  | some err => rfl
  | none =>
    simp only
    cases hdo : env.Do
        { Method := "GET", URL := c.tokenURL, Header := [("Metadata-Flavor", "Google")],
          Ctx := ctx } with
    | error err => rfl
    | ok response =>
      simp only
      by_cases hst : response.StatusCode = StatusOK
      · simp only [hst, ne_eq, not_true_eq_false, if_false]
        cases env.Decode response.Body <;> rfl
      · simp only [hst, ne_eq, not_false_eq_true, if_true]
        rfl

/-- C4. When the metadata endpoint answers with a status other than 200 (so for
every status that is not a success status), `getLoginAuth` returns the empty
credential and the error `unexpected status from metadata service: ` followed
by the status text of the response, it never decodes the body, and `Login` with
`autoLogin = true` returns no authenticator and that same error. -/
theorem getLoginAuth_unexpected_status (env : Env) (c : Client) (ctx : Context)
    (image : String) (ref : Option String) (response : Response)
    (hreq : env.NewRequestErr ctx "GET" c.tokenURL = none)
    (hdo : env.Do (tokenRequest c ctx) = Except.ok response)
    (hstatus : response.StatusCode ≠ 200) :
    (c.getLoginAuth env ctx).1 =
        ({}, some (GoError.errorString
          ("unexpected status from metadata service: " ++ response.Status))) ∧
      (c.getLoginAuth env ctx).2 =
        [Event.httpDo (tokenRequest c ctx), Event.copyDiscard response,
          Event.bodyClose response] ∧
      (c.getLoginAuth env ctx).2.filter Event.isDecode = [] ∧
      (c.Login env ctx true image ref).1 =
        (none, some (GoError.errorString
          ("unexpected status from metadata service: " ++ response.Status))) := by
  have h : c.getLoginAuth env ctx =
      (({}, some (GoError.errorString
          ("unexpected status from metadata service: " ++ response.Status))),
        [Event.httpDo (tokenRequest c ctx), Event.copyDiscard response,
          Event.bodyClose response]) := by
    simp only [tokenRequest] at hdo
    simp [Client.getLoginAuth, hreq, hdo, hstatus, StatusOK, Errorf_s, tokenRequest]
  refine ⟨by rw [h], by rw [h], by rw [h]; rfl, ?_⟩
  simp [Client.Login, h]

/-- Witness of C4: a `503 Service Unavailable` answer. -/
theorem getLoginAuth_unexpected_status_witness :
    (NewClient.getLoginAuth unavailableEnv Context.background).1 =
      ({}, some (GoError.errorString
        "unexpected status from metadata service: 503 Service Unavailable")) :=
  (getLoginAuth_unexpected_status unavailableEnv NewClient Context.background "x" none
    { Status := "503 Service Unavailable", StatusCode := 503, Body := "" }
    rfl rfl (by decide)).1

/-- C10. Once `getLoginAuth` has a response, its events end with the reading of
the body to its end followed by the closing of the body, whatever the exit
(status other than 200, decode failure, success), and nothing but the request
and the decoding comes before; when the round trip fails, or the request cannot
be built, no body is read or closed. -/
theorem getLoginAuth_body_released (env : Env) (c : Client) (ctx : Context) :
    (∀ response, env.NewRequestErr ctx "GET" c.tokenURL = none →
      env.Do (tokenRequest c ctx) = Except.ok response →
      ∃ before, (c.getLoginAuth env ctx).2 =
          before ++ [Event.copyDiscard response, Event.bodyClose response] ∧
        ∀ e ∈ before, e = Event.httpDo (tokenRequest c ctx) ∨ e = Event.decode response) ∧
    (∀ err, env.NewRequestErr ctx "GET" c.tokenURL = none →
      env.Do (tokenRequest c ctx) = Except.error err →
      (c.getLoginAuth env ctx).2 = [Event.httpDo (tokenRequest c ctx)]) ∧
    (∀ err, env.NewRequestErr ctx "GET" c.tokenURL = some err →
      (c.getLoginAuth env ctx).2 = []) := by
  refine ⟨?_, ?_, ?_⟩
  · intro response hreq hdo
    rw [getLoginAuth_events, hreq]
    simp only [hdo]
    by_cases hst : response.StatusCode = StatusOK
    · refine ⟨[Event.httpDo (tokenRequest c ctx), Event.decode response], ?_, ?_⟩
      · simp [hst]
      · intro e he
        simpa using he
    · refine ⟨[Event.httpDo (tokenRequest c ctx)], ?_, ?_⟩
      · simp [hst]
      · intro e he
        left
        simpa using he
  · intro err hreq hdo
    rw [getLoginAuth_events, hreq]
    simp only [hdo]
  · intro err hreq
    rw [getLoginAuth_events, hreq]

/-- Witness of C10: the `200 OK` answer of `okEnv` is decoded, then read to its
end, then closed. -/
theorem getLoginAuth_body_released_witness :
    ∃ before, (NewClient.getLoginAuth okEnv Context.background).2 =
        before ++ [Event.copyDiscard { Status := "200 OK", StatusCode := 200, Body := sampleBody },
          Event.bodyClose { Status := "200 OK", StatusCode := 200, Body := sampleBody }] ∧
      ∀ e ∈ before, e = Event.httpDo (tokenRequest NewClient Context.background) ∨
        e = Event.decode { Status := "200 OK", StatusCode := 200, Body := sampleBody } :=
  (getLoginAuth_body_released okEnv NewClient Context.background).1
    { Status := "200 OK", StatusCode := 200, Body := sampleBody } rfl rfl

/-! ## Auth options -/

/-- The events of `getAuthOpts` are those of its `Login` call. -/
theorem getAuthOpts_events (env : Env) (ctx : Context) (u : URL) :
    (getAuthOpts env ctx u).2 = (NewClient.Login env ctx true (env.URLString u) none).2 := by
  unfold getAuthOpts
  simp only
  split
  · rfl
  · rfl
  · split
    · rfl
    · split <;> rfl

/-- The requests among the events of `Login` with `autoLogin = true` are those of
`getLoginAuth`. -/
theorem Login_requests (env : Env) (c : Client) (ctx : Context) (image : String)
    (ref : Option String) :
    (c.Login env ctx true image ref).2.filter Event.isRequest =
      (c.getLoginAuth env ctx).2.filter Event.isRequest := by
  unfold Client.Login
  simp only [if_true]
  split <;> simp [List.filter_append, List.filter_cons, Event.isRequest]

/-- When the request can be built, `getLoginAuth` sends it exactly once. -/
theorem getLoginAuth_requests (env : Env) (c : Client) (ctx : Context)
    (hreq : env.NewRequestErr ctx "GET" c.tokenURL = none) :
    (c.getLoginAuth env ctx).2.filter Event.isRequest = [Event.httpDo (tokenRequest c ctx)] := by
  rw [getLoginAuth_events, hreq]
  simp only
  cases env.Do (tokenRequest c ctx) with
  | error err => simp [Event.isRequest]
  | ok response =>
    simp only
    split <;> simp [Event.isRequest]

/-- The auth options `getAuthOpts` returns carry the scheme of the URL as their
transport. -/
theorem getAuthOpts_Transport (env : Env) (ctx : Context) (u : URL) (authOpts : git.AuthOptions)
    (h : (getAuthOpts env ctx u).1 = (some authOpts, none)) : authOpts.Transport = u.Scheme := by
  unfold getAuthOpts at h
  simp only at h
  split at h
  · simp at h
  · simp at h
  · split at h
    · simp at h
    · rename_i hauth
      split at h
      · simp at h
      · rename_i a hnew
        simp only [Prod.mk.injEq, and_true] at h
        subst h
        unfold git.NewAuthOptions at hnew
        simp only at hnew
        split at hnew
        · simp at hnew
        · simp only [Prod.mk.injEq, Option.some.injEq, and_true] at hnew
          rw [← hnew]
          simp

/-- C5. The first effect of `gitCheckout` is the making of the git client with
the options `gitCheckout.clientOpts authOpts`, and for every auth options these
contain the permission to send credentials over plain HTTP exactly when the
transport is the scheme `http`: not for `https`, not for `ssh`.  For auth
options that `getAuthOpts` built from a URL, the transport is the scheme of
that URL, so the permission is there exactly when the URL has scheme `http`. -/
theorem gitCheckout_insecure_option (env : Env) (ctx : Context) (url dir : String)
    (authOpts : git.AuthOptions) (u : URL)
    (h : (getAuthOpts env ctx u).1 = (some authOpts, none)) :
    (∃ rest, (gitCheckout env ctx url authOpts dir).2 =
        Event.newClient dir authOpts (gitCheckout.clientOpts authOpts) :: rest) ∧
      (gogit.ClientOption.WithInsecureCredentialsOverHTTP ∈ gitCheckout.clientOpts authOpts ↔
        u.Scheme = "http") ∧
      (∀ a : git.AuthOptions,
        (gogit.ClientOption.WithInsecureCredentialsOverHTTP ∈ gitCheckout.clientOpts a ↔
          a.Transport = "http") ∧
        gogit.ClientOption.WithInsecureCredentialsOverHTTP ∉
          gitCheckout.clientOpts { a with Transport := "https" } ∧
        gogit.ClientOption.WithInsecureCredentialsOverHTTP ∉
          gitCheckout.clientOpts { a with Transport := "ssh" }) := by
  have key : ∀ a : git.AuthOptions,
      (gogit.ClientOption.WithInsecureCredentialsOverHTTP ∈ gitCheckout.clientOpts a ↔
        a.Transport = "http") := by
    intro a
    unfold gitCheckout.clientOpts
    by_cases ht : a.Transport = git.HTTP
    · simp only [ht, if_true]
      simp [git.HTTP]
    · simp only [ht, if_false]
      simpa [git.HTTP] using ht
  refine ⟨?_, ?_, ?_⟩
  · unfold gitCheckout
    simp only
    split
    · exact ⟨_, rfl⟩
    · split <;> exact ⟨_, rfl⟩
  · rw [key, getAuthOpts_Transport env ctx u authOpts h]
  · intro a
    refine ⟨key a, ?_, ?_⟩
    · rw [key]
      show ¬ ("https" : String) = "http"
      decide
    · rw [key]
      show ¬ ("ssh" : String) = "http"
      decide

/-- Witness of C5: for the `https` URL of `main` the options are disk storage
alone. -/
theorem gitCheckout_insecure_option_witness :
    (getAuthOpts okEnv Context.background mainURL).1 = (some mainAuthOpts, none) ∧
      (gogit.ClientOption.WithInsecureCredentialsOverHTTP ∈ gitCheckout.clientOpts mainAuthOpts ↔
        mainURL.Scheme = "http") :=
  ⟨by decide,
    (gitCheckout_insecure_option okEnv Context.background "" "" mainAuthOpts mainURL
      (by decide)).2.1⟩

/-- C6, as the claim states it, fails: the host of the URL `main` uses,
`source.developers.google.com`, is not eligible according to `ValidHost`, yet
`getAuthOpts` sends one request to the metadata endpoint for it and succeeds. -/
theorem getAuthOpts_ineligible_host_fetches :
    ValidHost mainURL.Host = false ∧
      (getAuthOpts okEnv Context.background mainURL).2.filter Event.isRequest =
        [Event.httpDo (tokenRequest NewClient Context.background)] ∧
      (getAuthOpts okEnv Context.background mainURL).1 = (some mainAuthOpts, none) := by
  refine ⟨by decide, by decide, by decide⟩

/-- C6, amended. The auth pipeline does not check the target host: for every
URL, whatever `ValidHost` says of its host, `getAuthOpts` sends exactly one
request, the token request to `GCP_TOKEN_URL`, as soon as that request can be
built. -/
theorem getAuthOpts_fetches_for_every_host (env : Env) (ctx : Context) (u : URL)
    (hreq : env.NewRequestErr ctx "GET" GCP_TOKEN_URL = none) :
    (getAuthOpts env ctx u).2.filter Event.isRequest =
        [Event.httpDo (tokenRequest NewClient ctx)] ∧
      (tokenRequest NewClient ctx).URL = GCP_TOKEN_URL := by
  refine ⟨?_, rfl⟩
  rw [getAuthOpts_events, Login_requests]
  exact getLoginAuth_requests env NewClient ctx hreq

/-- Witness of C6, amended: an eligible host gets its token the same way. -/
theorem getAuthOpts_fetches_for_every_host_witness :
    ValidHost "eu.gcr.io" = true ∧
      (getAuthOpts okEnv Context.background
          { Scheme := "https", Host := "eu.gcr.io", Path := "/r" }).2.filter Event.isRequest =
        [Event.httpDo (tokenRequest NewClient Context.background)] :=
  ⟨by decide,
    (getAuthOpts_fetches_for_every_host okEnv Context.background
      { Scheme := "https", Host := "eu.gcr.io", Path := "/r" } rfl).1⟩

/-! ## Checkout -/

theorem WithDeadline_Deadline (parent : Context) (d : Time) :
    (WithDeadline parent d).Deadline =
      some (match parent.Deadline with
        | some cur => min cur d
        | none => d) := by
  unfold WithDeadline
  cases hp : parent.Deadline with
  | none => rfl
  | some cur =>
    simp only
    by_cases hlt : cur < d
    · simp only [hlt, if_true, Context.Deadline, hp, Option.some.injEq]
      exact (min_eq_left (le_of_lt hlt)).symm
    · simp only [hlt, if_false, Context.Deadline, Option.some.injEq]
      exact (min_eq_right (not_lt.mp hlt)).symm

theorem WithDeadline_Done_of_parent (parent : Context) (d : Time) (cancelled : Context → Bool)
    (t : Time) (h : parent.Done cancelled t = true) :
    (WithDeadline parent d).Done cancelled t = true := by
  unfold WithDeadline
  cases parent.Deadline with
  | none => simp [Context.Done, h]
  | some cur =>
    simp only
    split <;> simp [Context.Done, h]

/-- A context is done once its deadline has passed. -/
theorem Context.Done_of_Deadline (cancelled : Context → Bool) (t : Time) :
    ∀ (c : Context) (d : Time), c.Deadline = some d → d ≤ t → c.Done cancelled t = true
  | Context.background, d, h, _ => by simp [Context.Deadline] at h
  | Context.cancelCtx parent, d, h, hle => by
    have ih := Context.Done_of_Deadline cancelled t parent d (by simpa [Context.Deadline] using h) hle
    simp [Context.Done, ih]
  | Context.timerCtx parent deadline, d, h, hle => by
    have hd : deadline = d := by simpa [Context.Deadline] using h
    subst hd
    simp [Context.Done, hle]

/-- C7. The context `gitCheckout` clones under is `gitCheckout.gitCtx`, made once
from the caller's context and the clock reading `env.now` at the start of the
call.  Its deadline is the earlier of the caller's deadline, if any, and
`env.now` plus 180 seconds; it is never later than `env.now` plus 180 seconds,
at which time the context is done; and it is done whenever the caller's
context is done, so cancelling the caller's context cancels it. -/
theorem gitCheckout_deadline (env : Env) (ctx : Context) (url dir : String)
    (authOpts : git.AuthOptions) (gitReader : gogit.Client)
    (h : env.NewClient dir authOpts (gitCheckout.clientOpts authOpts) = Except.ok gitReader) :
    (gitCheckout env ctx url authOpts dir).2.filter Event.isClone =
        [Event.clone gitReader (gitCheckout.gitCtx env ctx) url { ShallowClone := true }] ∧
      (gitCheckout.gitCtx env ctx).Deadline =
        some (match ctx.Deadline with
          | some d => min d (env.now + 180 * 1000000000)
          | none => env.now + 180 * 1000000000) ∧
      (∀ d, (gitCheckout.gitCtx env ctx).Deadline = some d → d ≤ env.now + 180 * 1000000000) ∧
      (∀ cancelled t, env.now + 180 * 1000000000 ≤ t →
        (gitCheckout.gitCtx env ctx).Done cancelled t = true) ∧
      (∀ cancelled t, ctx.Done cancelled t = true →
        (gitCheckout.gitCtx env ctx).Done cancelled t = true) := by
  have hdl : (gitCheckout.gitCtx env ctx).Deadline =
      some (match ctx.Deadline with
        | some d => min d (env.now + 180 * 1000000000)
        | none => env.now + 180 * 1000000000) := by
    unfold gitCheckout.gitCtx WithTimeout
    rw [WithDeadline_Deadline]
    rfl
  have hle : ∀ d, (gitCheckout.gitCtx env ctx).Deadline = some d →
      d ≤ env.now + 180 * 1000000000 := by
    intro d hd
    rw [hdl] at hd
    cases hc : ctx.Deadline with
    | none =>
      rw [hc] at hd
      simp only [Option.some.injEq] at hd
      exact le_of_eq hd.symm
    | some cur =>
      rw [hc] at hd
      simp only [Option.some.injEq] at hd
      rw [← hd]
      exact min_le_right _ _
  refine ⟨?_, hdl, hle, ?_, ?_⟩
  · unfold gitCheckout
    simp only [h]
    split <;> simp [Event.isClone]
  · intro cancelled t ht
    cases hg : (gitCheckout.gitCtx env ctx).Deadline with
    | none => rw [hdl] at hg; simp at hg
    | some d =>
      exact Context.Done_of_Deadline cancelled t _ d hg (le_trans (hle d hg) ht)
  · intro cancelled t hdone
    exact WithDeadline_Done_of_parent ctx _ cancelled t hdone

/-- Witness of C7: under a caller context whose deadline is 5 seconds after the
start, the clone context has that deadline. -/
theorem gitCheckout_deadline_witness :
    (gitCheckout.gitCtx okEnv (Context.timerCtx Context.background 5000000000)).Deadline =
      some (min 5000000000 (okEnv.now + 180 * 1000000000)) :=
  (gitCheckout_deadline okEnv (Context.timerCtx Context.background 5000000000) "" "" mainAuthOpts
    { handle := 1 } rfl).2.1

/-- C8, as the claim states it, fails: when the clone fails with
`authentication required`, `gitCheckout` returns a nil commit and that very
error, an `errors.New` value that wraps nothing and whose text is the bare
text of the clone error: no checkout-failure category is attached. -/
theorem gitCheckout_failure_untagged :
    (gitCheckout cloneFailsEnv Context.background "https://example.com/r" mainAuthOpts "/tmp/x").1 =
        (none, some (GoError.errorString "authentication required")) ∧
      (cloneFailsEnv.Clone { handle := 1 }
          (gitCheckout.gitCtx cloneFailsEnv Context.background) "https://example.com/r"
          { ShallowClone := true }).2 =
        some (GoError.errorString "authentication required") ∧
      (GoError.errorString "authentication required").Unwrap = none ∧
      (GoError.errorString "authentication required").Error = "authentication required" := by
  refine ⟨by decide, rfl, rfl, rfl⟩

/-- C8, amended. When the git client is acquired, `gitCheckout` makes exactly one
`Clone` call, on the given URL with `ShallowClone = true`, and returns that
call's result: the commit `Clone` returned when its error is nil, a nil commit
and the error of `Clone` itself, with nothing added to it, otherwise.  When
acquiring the client fails, that error is returned and `Clone` is not called. -/
theorem gitCheckout_result (env : Env) (ctx : Context) (url dir : String)
    (authOpts : git.AuthOptions) :
    (∀ gitReader,
      env.NewClient dir authOpts (gitCheckout.clientOpts authOpts) = Except.ok gitReader →
      (gitCheckout env ctx url authOpts dir).2.filter Event.isClone =
          [Event.clone gitReader (gitCheckout.gitCtx env ctx) url { ShallowClone := true }] ∧
        (∀ commit,
          env.Clone gitReader (gitCheckout.gitCtx env ctx) url { ShallowClone := true } =
            (commit, none) →
          (gitCheckout env ctx url authOpts dir).1 = (commit, none)) ∧
        (∀ commit err,
          env.Clone gitReader (gitCheckout.gitCtx env ctx) url { ShallowClone := true } =
            (commit, some err) →
          (gitCheckout env ctx url authOpts dir).1 = (none, some err))) ∧
    (∀ err,
      env.NewClient dir authOpts (gitCheckout.clientOpts authOpts) = Except.error err →
      (gitCheckout env ctx url authOpts dir).1 = (none, some err) ∧
        (gitCheckout env ctx url authOpts dir).2.filter Event.isClone = []) := by
  refine ⟨?_, ?_⟩
  · intro gitReader h
    refine ⟨?_, ?_, ?_⟩
    · unfold gitCheckout
      simp only [h]
      split <;> simp [Event.isClone]
    · intro commit hc
      unfold gitCheckout
      simp only [h, hc]
    · intro commit err hc
      unfold gitCheckout
      simp only [h, hc]
  · intro err h
    unfold gitCheckout
    simp only [h]
    simp [Event.isClone]

/-- Witness of C8, amended: a clone that returns commit `abc123` makes
`gitCheckout` return `abc123`. -/
theorem gitCheckout_result_witness :
    (gitCheckout okEnv Context.background "https://example.com/r" mainAuthOpts "/tmp/x").1 =
      (some { Hash := "abc123" }, none) :=
  ((gitCheckout_result okEnv Context.background "https://example.com/r" "/tmp/x"
    mainAuthOpts).1 { handle := 1 } rfl).2.1 (some { Hash := "abc123" }) rfl

/-- C9. When the git client handle is acquired, the events of `gitCheckout` are,
in order: the making of the client, the `Clone` call, the `Close` of the handle,
the cancel of the clone context; this whatever `Clone` returns (a commit, an
error, a timeout or a cancellation of the context).  So the handle is closed
exactly once, after `Clone` and before `gitCheckout` returns. -/
theorem gitCheckout_closes_client (env : Env) (ctx : Context) (url dir : String)
    (authOpts : git.AuthOptions) (gitReader : gogit.Client)
    (h : env.NewClient dir authOpts (gitCheckout.clientOpts authOpts) = Except.ok gitReader) :
    (gitCheckout env ctx url authOpts dir).2 =
        [Event.newClient dir authOpts (gitCheckout.clientOpts authOpts),
          Event.clone gitReader (gitCheckout.gitCtx env ctx) url { ShallowClone := true },
          Event.clientClose gitReader, Event.cancel (gitCheckout.gitCtx env ctx)] ∧
      (gitCheckout env ctx url authOpts dir).2.filter Event.isClientClose =
        [Event.clientClose gitReader] := by
  have hev : (gitCheckout env ctx url authOpts dir).2 =
      [Event.newClient dir authOpts (gitCheckout.clientOpts authOpts),
        Event.clone gitReader (gitCheckout.gitCtx env ctx) url { ShallowClone := true },
        Event.clientClose gitReader, Event.cancel (gitCheckout.gitCtx env ctx)] := by
    unfold gitCheckout
    simp only [h]
    split <;> rfl
  refine ⟨hev, ?_⟩
  rw [hev]
  simp [Event.isClientClose]

/-- Witness of C9: the handle is closed when the clone fails. -/
theorem gitCheckout_closes_client_witness :
    (gitCheckout cloneFailsEnv Context.background "https://example.com/r" mainAuthOpts
        "/tmp/x").2.filter Event.isClientClose = [Event.clientClose { handle := 1 }] :=
  (gitCheckout_closes_client cloneFailsEnv Context.background "https://example.com/r" "/tmp/x"
    mainAuthOpts { handle := 1 } rfl).2

end GcpSource
